import Mathlib

/-!
Shallow embedding of the document-ingestion scripts of this repository
(the mongo, chroma, langchain, pgvector, pinecone and capybaradb variants
of ingest_document), together with proofs about their field extraction,
chunking and chunk-identifier logic.
-/

/-- A Python value as manipulated by the ingestion scripts: strings,
integers, booleans, None, lists, and insertion-ordered dicts. -/
inductive PyVal where
  | str : String → PyVal
  | int : Int → PyVal
  | bool : Bool → PyVal
  | null : PyVal
  | list : List PyVal → PyVal
  | dict : List (String × PyVal) → PyVal

/-- dict lookup (`d.get(k)` / `k in d`); keys are unique, first match wins. -/
def dlookup (k : String) : List (String × PyVal) → Option PyVal
  | [] => none
  | (k1, v) :: es => if k1 = k then some v else dlookup k es

/-- Python truthiness of an embedded value. -/
def pyTruthy : PyVal → Bool
  | .str s => s != ""
  | .int n => n != 0
  | .bool b => b
  | .null => false
  | .list l => !l.isEmpty
  | .dict es => !es.isEmpty

/-- A single-quote character, used by the Python repr of strings. -/
def pyQuote : String := String.singleton (Char.ofNat 39)

mutual
/-- Python repr of an embedded value.  Escaping of quotes inside strings is
not modelled; the repository never reprs strings containing quotes. -/
def pyRepr : PyVal → String
  | .str s => pyQuote ++ s ++ pyQuote
  | .int n => toString n
  | .bool b => if b then "True" else "False"
  | .null => "None"
  | .list l => "[" ++ String.intercalate ", " (pyReprList l) ++ "]"
  | .dict es => "\x7b" ++ String.intercalate ", " (pyReprEntries es) ++ "\x7d"

def pyReprList : List PyVal → List String
  | [] => []
  | v :: vs => pyRepr v :: pyReprList vs

def pyReprEntries : List (String × PyVal) → List String
  | [] => []
  | (k, v) :: es => (pyQuote ++ k ++ pyQuote ++ ": " ++ pyRepr v) :: pyReprEntries es
end

/-- Python `str()` of an embedded value. -/
def pyStr : PyVal → String
  | .str s => s
  | v => pyRepr v

/-- Left-to-right, non-overlapping split of a character list on a non-empty
separator, Python str.split(sep) style.  Driven by a character-count fuel so
that it reduces definitionally; fuel = length of the list always suffices. -/
def pySplitAux (sep : List Char) : Nat → List Char → List Char → List (List Char)
  | 0, acc, cs => [acc ++ cs]
  | fuel + 1, acc, cs =>
    if sep.isPrefixOf cs then acc :: pySplitAux sep fuel [] (cs.drop sep.length)
    else
      match cs with
      | [] => [acc]
      | c :: cs2 => pySplitAux sep fuel (acc ++ [c]) cs2

/-- Python text.split(sep) for an explicit separator (the scripts never split
on an empty separator, which Python rejects). -/
def pySplit (text sep : String) : List String :=
  if sep = "" then [text]
  else (pySplitAux sep.data text.data.length [] text.data).map String.mk

namespace mongo

/-- One UpdateOne bulk operation as built by src/mongo/implementation.py
(filter keys doc_id/chunk_id, and the fields written by the update). -/
structure Op where
  doc_id : PyVal
  chunk_id : String
  field : String
  chunk_index : Nat
  text : String
  embedding : Option (List Int)
  total_chunks : Nat
  chunk_size : Int
  chunk_overlap : Int

/-- Greedy packing loop of chunk_text (src/mongo/implementation.py, lines 24-36):
words accumulate while current_length + len(word) + 1 stays within chunk_size. -/
def chunk_text_greedy_aux (chunk_size : Int) (separator : String) :
    List String → List String → Nat → List String
  | [], cur, _ => if cur.isEmpty then [] else [String.intercalate separator cur]
  | w :: ws, cur, curLen =>
    if (curLen + w.length + 1 : Int) ≤ chunk_size then
      chunk_text_greedy_aux chunk_size separator ws (cur ++ [w]) (curLen + w.length + 1)
    else
      (if cur.isEmpty then [] else [String.intercalate separator cur]) ++
        chunk_text_greedy_aux chunk_size separator ws [w] (w.length + 1)

/-- The pre-overlap chunk list of chunk_text. -/
def chunk_text_greedy (chunk_size : Int) (separator : String) (text : String) : List String :=
  chunk_text_greedy_aux chunk_size separator (pySplit text separator) [] 0

/-- prev_chunk.split(separator)[-chunk_overlap:] (line 44): the last
chunk_overlap words of the previous chunk; reached only when chunk_overlap > 0. -/
def overlap_words (chunk_overlap : Int) (separator : String) (prev_chunk : String) : List String :=
  let ws := pySplit prev_chunk separator
  ws.drop (ws.length - chunk_overlap.toNat)

/-- chunk_text (lines 18-49): greedy packing, then word-based overlap expansion
prepending the last chunk_overlap words of the previous (pre-overlap) chunk. -/
def chunk_text (chunk_size chunk_overlap : Int) (separator : String) (text : String) :
    List String :=
  let chunks := chunk_text_greedy chunk_size separator text
  if chunk_overlap > 0 ∧ chunks.length > 1 then
    chunks.enum.map fun ic =>
      if ic.1 > 0 then
        let prev := (chunks.get? (ic.1 - 1)).getD ""
        String.intercalate separator
          (overlap_words chunk_overlap separator prev ++ pySplit ic.2 separator)
      else ic.2
  else chunks

/-- Wildcard branch of extract_field_content (lines 57-66): dict items are
replaced by their values in order, other items are kept. -/
def star_flatten : List PyVal → List PyVal
  | [] => []
  | .dict es :: rest => es.map Prod.snd ++ star_flatten rest
  | v :: rest => v :: star_flatten rest

/-- extract_field_content (lines 51-74).  Note that a literal segment applied
to a scalar leaves current unchanged (no isinstance branch matches). -/
def extract_field_content : PyVal → List String → String
  | cur, [] => if pyTruthy cur then pyStr cur else ""
  | cur, part :: rest =>
    if !pyTruthy cur then ""
    else if part = "*" then
      match cur with
      | .list items => extract_field_content (.list (star_flatten items)) rest
      | _ => extract_field_content cur rest
    else
      match cur with
      | .dict es => extract_field_content ((dlookup part es).getD (.str "")) rest
      | .list items =>
        extract_field_content
          (.str (String.intercalate " "
            ((items.filter pyTruthy).map fun it =>
              match it with
              | .dict es => pyStr ((dlookup part es).getD (.str ""))
              | v => pyStr v))) rest
      | _ => extract_field_content cur rest

/-- The chunk identifier written into each operation (line 88). -/
def chunk_id_of (field : String) (i : Nat) : String :=
  field ++ "_chunk_" ++ toString i

/-- The UpdateOne operations built for one searchable field (lines 84-104). -/
def field_ops (doc_id : PyVal) (field : String) (chunk_size chunk_overlap : Int)
    (separator : String) (emb : Option (String → List Int)) (content : String) : List Op :=
  let chunks := chunk_text chunk_size chunk_overlap separator content
  chunks.enum.map fun ic =>
    { doc_id := doc_id
      chunk_id := chunk_id_of field (ic.1 + 1)
      field := field
      chunk_index := ic.1 + 1
      text := ic.2
      embedding := emb.map fun f => f ic.2
      total_chunks := chunks.length
      chunk_size := chunk_size
      chunk_overlap := chunk_overlap }

/-- doc_id derivation (line 76) and the loop over searchable_fields
(lines 79-104), for a document with top-level entries es. -/
def ingest_ops (es : List (String × PyVal)) (searchable_fields : List String)
    (chunk_size chunk_overlap : Int) (separator : String)
    (emb : Option (String → List Int)) : List Op :=
  let doc_id := (dlookup "id" es).getD (.str (pyStr (.dict es)))
  searchable_fields.flatMap fun field =>
    let content := extract_field_content (.dict es) (pySplit field ".")
    if content = "" then []
    else field_ops doc_id field chunk_size chunk_overlap separator emb content

/-- ingest_document (lines 4-107): builds the bulk operations.  The function
body raises nothing; a non-dict document would fail at document.get. -/
def ingest_document (document : PyVal) (searchable_fields : List String)
    (chunk_size chunk_overlap : Int) (separator : String)
    (emb : Option (String → List Int)) : Except String (List Op) :=
  match document with
  | .dict es => .ok (ingest_ops es searchable_fields chunk_size chunk_overlap separator emb)
  | _ => .error "AttributeError"

end mongo

namespace chroma

/-- One chunks_data entry as built by create_chunk
(src/chroma/implementation.py lines 52-61). -/
structure Chunk where
  id : String
  text : String
  document_id : String
  field : String
  chunk_index : Nat

/-- extract_field_value (lines 27-50).  Fuel-indexed so that it reduces
definitionally; the recursion depth is bounded by the path length, and every
caller passes path length + 1 fuel. -/
def extract_field_value (separator : String) :
    Nat → PyVal → List String → String → List (String × String)
  | 0, _, _, _ => []
  | _ + 1, _, [], _ => []
  | fuel + 1, obj, current :: remaining, current_path =>
    match obj with
    | .list items =>
      if current = "*" then
        items.enum.flatMap fun iit =>
          extract_field_value separator fuel iit.2 remaining
            (if current_path = "" then "[" ++ toString iit.1 ++ "]"
             else current_path ++ "[" ++ toString iit.1 ++ "]")
      else []
    | .dict es =>
      let new_path := if current_path = "" then current else current_path ++ "." ++ current
      if remaining.isEmpty then
        match dlookup current es with
        | some (.str s) => [(new_path, s)]
        | some (.list l) => [(new_path, String.intercalate separator (l.map pyStr))]
        | _ => []
      else
        match dlookup current es with
        | some v => extract_field_value separator fuel v remaining new_path
        | none => []
    | _ => []

/-- The overlap recomputation when a chunk closes (lines 85-96): walk the
closed chunk's words from the end, keeping words while the accumulated
length (word + separator each) stays within chunk_overlap; returns the kept
words in original order together with their accumulated length. -/
def overlap_rev (chunk_overlap : Int) (separator : String) :
    Nat → List String → List String × Nat
  | olen, [] => ([], olen)
  | olen, w :: ws =>
    let wl := w.length + separator.length
    if (olen + wl : Int) > chunk_overlap then ([], olen)
    else
      let r := overlap_rev chunk_overlap separator (olen + wl) ws
      (r.1 ++ [w], r.2)

/-- The word loop of ingest_document for one resolved field (lines 68-107):
carries current_chunk, current_length and chunk_index, emitting
(text, chunk_index) pairs in production order. -/
def chunk_loop (chunk_size chunk_overlap : Int) (separator : String) :
    List String → List String → Nat → Nat → List (String × Nat)
  | [], cur, _, idx =>
    if cur.isEmpty then [] else [(String.intercalate separator cur, idx)]
  | w :: ws, cur, curLen, idx =>
    let wl := w.length + (if cur.isEmpty then 0 else separator.length)
    if (curLen + wl : Int) > chunk_size ∧ cur ≠ [] then
      let r := overlap_rev chunk_overlap separator 0 cur.reverse
      (String.intercalate separator cur, idx) ::
        chunk_loop chunk_size chunk_overlap separator ws (r.1 ++ [w]) (r.2 + wl) (idx + 1)
    else
      chunk_loop chunk_size chunk_overlap separator ws (cur ++ [w]) (curLen + wl) idx

/-- create_chunk (lines 52-61). -/
def create_chunk (doc_id_str field_path : String) (chunk_index : Nat) (text : String) : Chunk :=
  { id := doc_id_str ++ "_" ++ field_path ++ "_chunk_" ++ toString chunk_index
    text := text
    document_id := doc_id_str
    field := field_path
    chunk_index := chunk_index }

/-- chunks_data entries contributed by one searchable field pattern
(lines 63-107). -/
def field_records (doc_id_str : String) (chunk_size chunk_overlap : Int) (separator : String)
    (document : PyVal) (field_pattern : String) : List Chunk :=
  let path := pySplit field_pattern "."
  (extract_field_value separator (path.length + 1) document path "").flatMap fun pt =>
    (chunk_loop chunk_size chunk_overlap separator (pySplit pt.2 separator) [] 0 0).map fun ti =>
      create_chunk doc_id_str pt.1 ti.2 ti.1

/-- ingest_document (lines 4-115): reads document["id"] (KeyError when absent)
and collects chunks_data over all searchable fields. -/
def ingest_document (document : PyVal) (searchable_fields : List String)
    (chunk_size chunk_overlap : Int) (separator : String) : Except String (List Chunk) :=
  match document with
  | .dict es =>
    match dlookup "id" es with
    | some idv =>
        .ok (searchable_fields.flatMap
          (field_records (pyStr idv) chunk_size chunk_overlap separator (.dict es)))
    | none => .error "KeyError"
  | _ => .error "TypeError"

end chroma

namespace langchain

/-- extract_field_value (src/langchain/implementation.py lines 23-46): returns
the matched values as strings.  The current_path list is threaded exactly as in
the code but never returned.  Fuel-indexed as for chroma. -/
def extract_field_value : Nat → PyVal → List String → List String → List String
  | 0, _, _, _ => []
  | _ + 1, obj, [], _ => [pyStr obj]
  | fuel + 1, obj, current :: remaining, current_path =>
    if current = "*" then
      match obj with
      | .list items =>
        items.enum.flatMap fun iit =>
          extract_field_value fuel iit.2 remaining (current_path ++ [toString iit.1])
      | _ => []
    else
      match obj with
      | .dict es =>
        match dlookup current es with
        | some v => extract_field_value fuel v remaining (current_path ++ [current])
        | none => []
      | _ => []

end langchain

/-- Stable insertion of a rendered dict entry in key order (for sort_keys). -/
def insertByKey (p : String × String) : List (String × String) → List (String × String)
  | [] => [p]
  | q :: qs => if p.1 ≤ q.1 then p :: q :: qs else q :: insertByKey p qs

/-- Stable key sort of rendered dict entries, json.dumps sort_keys order. -/
def sortByKey (l : List (String × String)) : List (String × String) :=
  l.foldr insertByKey []

mutual
/-- json.dumps of an embedded value with default separators; string escaping is
not modelled.  When sortKeys is set, dict keys are emitted in sorted order as
with json.dumps(..., sort_keys=True); entries are rendered first and then
ordered by key, which yields the same output since rendering keeps keys. -/
def pyJson (sortKeys : Bool) : PyVal → String
  | .str s => "\"" ++ s ++ "\""
  | .int n => toString n
  | .bool b => if b then "true" else "false"
  | .null => "null"
  | .list l => "[" ++ String.intercalate ", " (pyJsonList sortKeys l) ++ "]"
  | .dict es =>
    let ordered := if sortKeys then sortByKey (pyJsonEntries sortKeys es)
                   else pyJsonEntries sortKeys es
    "\x7b" ++
      String.intercalate ", " (ordered.map fun kv => "\"" ++ kv.1 ++ "\": " ++ kv.2) ++ "\x7d"

def pyJsonList (sortKeys : Bool) : List PyVal → List String
  | [] => []
  | v :: vs => pyJson sortKeys v :: pyJsonList sortKeys vs

def pyJsonEntries (sortKeys : Bool) : List (String × PyVal) → List (String × String)
  | [] => []
  | (k, v) :: es => (k, pyJson sortKeys v) :: pyJsonEntries sortKeys es
end

namespace pgvector

/-- One row write of ingest_document (src/pgvector/implementation.py lines
59-80); the ON CONFLICT key is (doc_id, field_name, chunk_index). -/
structure Row where
  doc_id : PyVal
  field_name : String
  chunk_index : Nat
  chunk_text : String
  embedding : List Int
  metadata : String

/-- Inner packing loop of create_chunks (lines 119-123): consume words while
current_len + len(word) + (1 if current_len > 0 else 0) stays within
chunk_size; returns (words consumed, final current_len). -/
def pack (chunk_size : Int) : List String → Nat → Nat × Nat
  | [], n => (0, n)
  | w :: ws, n =>
    if (n + w.length + (if n > 0 then 1 else 0) : Int) ≤ chunk_size then
      let r := pack chunk_size ws (n + w.length + (if n > 0 then 1 else 0))
      (r.1 + 1, r.2)
    else (0, n)

/-- Outer while loop of create_chunks (lines 112-126), fuel-indexed: the loop
does not always make progress, so the embedding returns none when fuel runs
out (and none for the ZeroDivisionError when the separator and the
words[end-1:end] slice are both empty). -/
def create_chunks_loop (chunk_size overlap : Int) (sep : String) (words : List String) :
    Nat → Nat → List String → Option (List String)
  | 0, _, _ => none
  | fuel + 1, start, acc =>
    if start < words.length then
      let tail := words.drop start
      let chunkAll := String.intercalate sep tail
      if (chunkAll.length : Int) ≤ chunk_size then some (acc ++ [chunkAll])
      else
        let k := (pack chunk_size tail 0).1
        let endIdx := start + k
        let lastLen : Nat :=
          if endIdx = 0 then 0
          else (((words.drop (endIdx - 1)).take 1).map String.length).sum
        let denom : Int := sep.length + lastLen
        if denom = 0 then none
        else
          create_chunks_loop chunk_size overlap sep words fuel
            (max (start : Int) ((endIdx : Int) - max 1 (overlap.tdiv denom))).toNat
            (acc ++ [String.intercalate sep (tail.take k)])
    else some acc

/-- create_chunks (lines 107-128); int(overlap / x) on non-negative ints is
truncating division, Int.tdiv. -/
def create_chunks (fuel : Nat) (text : String) (chunk_size overlap : Int) (sep : String) :
    Option (List String) :=
  create_chunks_loop chunk_size overlap sep (pySplit text sep) fuel 0 []

/-- get_field_value (lines 84-96), fuel-indexed.  The loop returns at the
first "*" segment it meets, so parts[parts.index("*")+1:] is exactly the
remaining segments; the code joins them with "." and re-splits in the
recursive call, which this embedding mirrors (join of [] re-splits to [""]).
some .null models a Python None result; none is exhausted fuel. -/
def get_field_value : Nat → PyVal → List String → Option PyVal
  | 0, _, _ => none
  | _ + 1, cur, [] => some cur
  | fuel + 1, cur, part :: rest =>
    if part = "*" then
      match cur with
      | .list items =>
        (items.mapM fun it =>
          get_field_value fuel it (pySplit (String.intercalate "." rest) ".")).map .list
      | _ => some .null
    else
      match cur with
      | .dict es =>
        match dlookup part es with
        | some v => get_field_value fuel v rest
        | none => some .null
      | _ => some .null

/-- flatten_list (lines 98-105), fuel-indexed (nested lists). -/
def flatten_list : Nat → List PyVal → List String
  | 0, _ => []
  | _ + 1, [] => []
  | fuel + 1, .list l :: rest => flatten_list fuel l ++ flatten_list fuel rest
  | fuel + 1, .null :: rest => flatten_list fuel rest
  | fuel + 1, v :: rest => pyStr v :: flatten_list fuel rest

/-- doc_id (line 43): document.get("id", str(hash(json.dumps(document,
sort_keys=True)))).  Python hashes of strings are salted per process, so the
hash is an explicit environment parameter of the embedding. -/
def doc_id_of (hashFn : String → Int) (es : List (String × PyVal)) : PyVal :=
  (dlookup "id" es).getD (.str (toString (hashFn (pyJson true (.dict es)))))

/-- The ordered row writes of ingest_document (lines 42-80) for a document
with top-level entries es, given an already computed doc_id. -/
def ingest_rows_from (did : PyVal) (fuel : Nat) (es : List (String × PyVal))
    (searchable_fields : List String) (chunk_size chunk_overlap : Int) (sep : String)
    (embF : String → List Int) : Option (List Row) :=
  searchable_fields.foldlM (fun acc field => do
    let fv ← get_field_value fuel (.dict es) (pySplit field ".")
    match fv with
    | .null => pure acc
    | _ =>
      let texts := flatten_list fuel (match fv with | .list l => l | v => [v])
      texts.foldlM (fun acc2 text =>
        if text = "" then pure acc2
        else do
          let chunks ← create_chunks fuel text chunk_size chunk_overlap sep
          pure (acc2 ++ chunks.enum.map fun ic =>
            { doc_id := did
              field_name := field
              chunk_index := ic.1
              chunk_text := ic.2
              embedding := embF ic.2
              metadata := pyJson false (.dict [("document", .dict es)]) })) acc) []

/-- ingest_rows: doc_id derivation followed by the field loop. -/
def ingest_rows (hashFn : String → Int) (fuel : Nat) (es : List (String × PyVal))
    (searchable_fields : List String) (chunk_size chunk_overlap : Int) (sep : String)
    (embF : String → List Int) : Option (List Row) :=
  ingest_rows_from (doc_id_of hashFn es) fuel es searchable_fields chunk_size chunk_overlap
    sep embF

/-- Whether the document carries a top-level "id" key. -/
def has_id : PyVal → Bool
  | .dict es => (dlookup "id" es).isSome
  | _ => false

/-- ingest_document (lines 6-82); a non-dict document fails at document.get. -/
def ingest_document (hashFn : String → Int) (fuel : Nat) (document : PyVal)
    (searchable_fields : List String) (chunk_size chunk_overlap : Int) (sep : String)
    (embF : String → List Int) : Option (List Row) :=
  match document with
  | .dict es => ingest_rows hashFn fuel es searchable_fields chunk_size chunk_overlap sep embF
  | _ => none

end pgvector

namespace pinecone

/-- One tuple appended to vectors_to_upsert (src/pinecone/implementation.py
lines 83-91): (chunk_id, embedding, metadata). -/
structure Vec where
  id : String
  values : List Int
  document_id : String
  field : String
  chunk_index : Nat
  text : String

/-- Python slice index normalisation (negative indices count from the end,
then clamp into range). -/
def pyIdx (n : Nat) (i : Int) : Nat := ((if i < 0 then i + n else i).toNat).min n

/-- Python l[a:b]. -/
def pySlice (l : List α) (a b : Int) : List α :=
  (l.take (pyIdx l.length b)).drop (pyIdx l.length a)

/-- get_nested_value (lines 18-29), fuel-indexed.  allParts is the full split
of the current invocation's path: the code computes parts.index('*') on it
when a wildcard is taken (always the FIRST star of the full list, even when a
star segment was already consumed through a dict lookup).  some .null models
a Python None result; none is exhausted fuel. -/
def get_nested_value_loop : Nat → List String → PyVal → List String → Option PyVal
  | 0, _, _, _ => none
  | _ + 1, _, cur, [] => some cur
  | fuel + 1, allParts, cur, part :: rest =>
    if part = "*" then
      match cur with
      | .list items =>
        let remainingStr := String.intercalate "." (allParts.drop (allParts.indexOf "*" + 1))
        (items.mapM fun it =>
          get_nested_value_loop fuel (pySplit remainingStr ".") it
            (pySplit remainingStr ".")).map .list
      | .dict es => get_nested_value_loop fuel allParts ((dlookup "*" es).getD (.dict [])) rest
      | _ => some .null
    else
      match cur with
      | .dict es => get_nested_value_loop fuel allParts ((dlookup part es).getD (.dict [])) rest
      | _ => some .null

/-- get_nested_value entry point. -/
def get_nested_value (fuel : Nat) (obj : PyVal) (path : String) : Option PyVal :=
  get_nested_value_loop fuel (pySplit path ".") obj (pySplit path ".")

/-- flatten (lines 32-39), fuel-indexed; keeps non-list items including None. -/
def flatten : Nat → List PyVal → List PyVal
  | 0, _ => []
  | _ + 1, [] => []
  | fuel + 1, .list l :: rest => flatten fuel l ++ flatten fuel rest
  | fuel + 1, v :: rest => v :: flatten fuel rest

/-- While loop of create_chunks (lines 54-57), fuel-indexed: when
chunk_words - overlap_words ≤ 0 the loop never advances, so the embedding
returns none when fuel runs out. -/
def create_chunks_loop (separator : String) (words : List String)
    (chunk_words overlap_words : Int) : Nat → Int → List String → Option (List String)
  | 0, _, _ => none
  | fuel + 1, start, acc =>
    if start < (words.length : Int) then
      create_chunks_loop separator words chunk_words overlap_words fuel
        (start + chunk_words - overlap_words)
        (acc ++ [String.intercalate separator (pySlice words start (start + chunk_words))])
    else some acc

/-- create_chunks (lines 42-59); Python // on ints is floor division, Int.fdiv. -/
def create_chunks (fuel : Nat) (chunk_size chunk_overlap : Int) (separator : String)
    (text : String) : Option (List String) :=
  if text = "" then some []
  else
    let words := pySplit text separator
    if words.isEmpty then some []
    else
      create_chunks_loop separator words
        (chunk_size.fdiv ((separator.length : Int) + 1))
        (chunk_overlap.fdiv ((separator.length : Int) + 1)) fuel 0 []

/-- isinstance(value, (str, int, float)); bool is a subclass of int. -/
def is_scalar : PyVal → Bool
  | .str _ => true
  | .int _ => true
  | .bool _ => true
  | _ => false

/-- The body of the value loop (lines 76-91): skip non-scalars, chunk the
value's string form, and extend vectors_to_upsert only when an
embedding_model is configured. -/
def process_value (fuel : Nat) (chunk_size chunk_overlap : Int) (separator : String)
    (doc_id field : String) (emb : Option (String → List Int)) (acc : List Vec)
    (v : PyVal) : Option (List Vec) :=
  if !is_scalar v then pure acc
  else do
    let chunks ← create_chunks fuel chunk_size chunk_overlap separator (pyStr v)
    match emb with
    | some f =>
      pure (acc ++ chunks.enum.map fun ic =>
        { id := doc_id ++ "_" ++ field ++ "_" ++ toString ic.1
          values := f ic.2
          document_id := doc_id
          field := field
          chunk_index := ic.1
          text := ic.2 })
    | none => pure acc

/-- The body of the field loop (lines 65-91). -/
def process_field (fuel : Nat) (chunk_size chunk_overlap : Int) (separator : String)
    (doc_id : String) (emb : Option (String → List Int)) (document : PyVal)
    (acc : List Vec) (field : String) : Option (List Vec) := do
  let fv ← get_nested_value fuel document field
  if !pyTruthy fv then pure acc
  else
    (flatten fuel (match fv with | .list l => l | v => [v])).foldlM
      (process_value fuel chunk_size chunk_overlap separator doc_id field emb) acc

/-- doc_id (line 63): str(document.get('id', '')); the documents of the
repository are dicts. -/
def doc_id_of (document : PyVal) : String :=
  pyStr (match document with
    | .dict es => (dlookup "id" es).getD (.str "")
    | v => v)

/-- ingest_document (lines 4-107).  The result pairs vectors_to_upsert with
whether the Pinecone client is contacted at all (lines 94-107 run only when
vectors_to_upsert is non-empty). -/
def ingest_document (fuel : Nat) (document : PyVal) (searchable_fields : List String)
    (chunk_size chunk_overlap : Int) (separator : String)
    (emb : Option (String → List Int)) : Option (List Vec × Bool) := do
  let vecs ← searchable_fields.foldlM
    (process_field fuel chunk_size chunk_overlap separator (doc_id_of document) emb
      document) []
  pure (vecs, !vecs.isEmpty)

end pinecone

namespace capybaradb

/-- A heap value of the capybaradb script: strings, ints, references to dict
objects, inline lists (Python lists are aliased too, but process_field never
assigns into a list, so only dict identity matters for mutation), and the
EmbText wrapper installed by process_field (text and chunking parameters). -/
inductive HVal where
  | str : String → HVal
  | int : Int → HVal
  | ref : Nat → HVal
  | listv : List HVal → HVal
  | embText : String → Int → Int → String → HVal

/-- A dict object: insertion-ordered entries. -/
abbrev Obj := List (String × HVal)

/-- The heap of dict objects, addressed by allocation order. -/
abbrev Heap := List (Nat × Obj)

/-- Dereference an address. -/
def heapGet (a : Nat) : Heap → Option Obj
  | [] => none
  | (a1, o) :: t => if a1 = a then some o else heapGet a t

/-- Dict entry lookup. -/
def olookup (part : String) : Obj → Option HVal
  | [] => none
  | (k, v) :: t => if k = part then some v else olookup part t

/-- Python dict assignment: update in place keeping the key position, or
append a new entry. -/
def oset (o : Obj) (k : String) (v : HVal) : Obj :=
  if (olookup k o).isSome then o.map fun kv => if kv.1 = k then (k, v) else kv
  else o ++ [(k, v)]

/-- In-place assignment current[k] = v at address a. -/
def heapSet (h : Heap) (a : Nat) (k : String) (v : HVal) : Heap :=
  h.map fun ao => if ao.1 = a then (ao.1, oset ao.2 k v) else ao

/-- A fresh address for document.copy(). -/
def freshAddr (h : Heap) : Nat := (h.map Prod.fst).foldr max 0 + 1

/-- Python `part in item` for a list element (string equality). -/
def isStrEq (part : String) : HVal → Bool
  | .str s => s == part
  | _ => false

/-- Python `part in s` for strings: substring membership. -/
def substrMem (part s : String) : Bool := part == "" || (pySplit s part).length > 1

/-- process_field (src/capybaradb/implementation.py lines 20-46), fuel-indexed
(every recursive call decrements; the depth is bounded by the number of path
segments).  The loop walks parts; a wildcard over a list recurses into every
item with the re-joined remaining path; the last segment replaces a str value
with an EmbText wrapper through the reference held in current, which is how a
nested dict shared with the caller's document gets mutated.  Branches that
would raise a Python TypeError are .error results (unreached here). -/
def process_field (chunk_size chunk_overlap : Int) (separator : String) :
    Nat → Heap → HVal → List String → Except String Heap
  | 0, _, _, _ => .error "fuel"
  | _ + 1, heap, _, [] => .ok heap
  | fuel + 1, heap, cur, part :: rest =>
    match cur with
    | .listv items =>
      if part = "*" then
        let remaining := String.intercalate "." rest
        if remaining = "" then .ok heap
        else
          items.foldlM (fun h it =>
            process_field chunk_size chunk_overlap separator fuel h it
              (pySplit remaining ".")) heap
      else if items.any (isStrEq part) then .error "TypeError" else .ok heap
    | .ref a =>
      match heapGet a heap with
      | some o =>
        if rest.isEmpty then
          match olookup part o with
          | some (.str s) =>
            .ok (heapSet heap a part (.embText s chunk_size chunk_overlap separator))
          | _ => .ok heap
        else
          match olookup part o with
          | some v => process_field chunk_size chunk_overlap separator fuel heap v rest
          | none => .ok heap
      | none => .error "dangling"
    | .str s => if substrMem part s then .error "TypeError" else .ok heap
    | _ => .error "TypeError"

/-- ingest_document (lines 4-51): doc_copy = document.copy() shallow-copies
only the top-level dict into a fresh address (nested objects stay shared),
then process_field runs for each searchable field against the copy. -/
def ingest_document (fuel : Nat) (heap : Heap) (docAddr : Nat)
    (searchable_fields : List String) (chunk_size chunk_overlap : Int)
    (separator : String) : Except String (Heap × Nat) :=
  match heapGet docAddr heap with
  | some o =>
    let copyAddr := freshAddr heap
    let heap1 := heap ++ [(copyAddr, o)]
    (searchable_fields.foldlM (fun h f =>
        process_field chunk_size chunk_overlap separator fuel h (.ref copyAddr)
          (pySplit f ".")) heap1).map fun h2 => (h2, copyAddr)
  | none => .error "dangling"

end capybaradb

/-- The length of the longest string that is simultaneously a suffix of the
previous chunk and a prefix of the current chunk: the shared overlap content
between two consecutive chunks, measured in characters. -/
def sharedOverlapLen (prev cur : String) : Nat :=
  ((List.range (min prev.length cur.length + 1)).filter fun k =>
    prev.data.drop (prev.data.length - k) = cur.data.take k).foldr max 0

/-- The pgvector chunking loop is stuck on the word list ["abcde"] with
chunk_size 3 and overlap 0: each round packs zero words, appends an empty
chunk and leaves start at 0, for any amount of fuel. -/
theorem pgv_loop_stuck : ∀ (fuel : Nat) (acc : List String),
    pgvector.create_chunks_loop 3 0 " " ["abcde"] fuel 0 acc = none
  | 0, _ => rfl
  | fuel + 1, acc => pgv_loop_stuck fuel (acc ++ [""])

/-- C2: the claim that chunking terminates with at least one chunk for every
non-empty input and all chunkSize >= 1, chunkOverlap >= 0 fails in the code:
pgvector's create_chunks("abcde", chunk_size 3, overlap 0, sep " ") never
returns.  A single word longer than chunk_size packs zero words, so start
stays 0 while empty chunks accumulate; the fuel-indexed embedding yields none
at every fuel. -/
theorem c2_create_chunks_nonterminating :
    ∀ fuel : Nat, pgvector.create_chunks fuel "abcde" 3 0 " " = none :=
  fun fuel => pgv_loop_stuck fuel []

/-- C5: the caller's document is mutated.  The initial heap holds the
document at address 0 whose "meta" entry references the nested dict at
address 1; ingest_document over field path "meta.body" shallow-copies only
the top level, so process_field rewrites the shared object at address 1:
after the call the caller's document reaches an EmbText where it held the
string "hello world". -/
theorem c5_nested_mutation :
    (capybaradb.ingest_document 10
        [(0, [("id", .str "d1"), ("meta", .ref 1)]), (1, [("body", .str "hello world")])]
        0 ["meta.body"] 512 50 " ").map (fun p => capybaradb.heapGet 1 p.1) =
      .ok (some [("body", .embText "hello world" 512 50 " ")]) ∧
    capybaradb.heapGet 1
        [(0, [("id", .str "d1"), ("meta", .ref 1)]), (1, [("body", .str "hello world")])] =
      some [("body", .str "hello world")] ∧
    capybaradb.HVal.embText "hello world" 512 50 " " ≠ .str "hello world" :=
  ⟨rfl, rfl, fun h => by injection h⟩

/-- C3: the claimed scenario output is not what the code produces: mongo's
chunk_text on "a b c d e" (size 3, overlap 1, sep " ") is not the four chunks
["a b","b c","c d","d e"], and chroma's ingest_document does not produce
those four texts either. -/
theorem c3_counterexample :
    mongo.chunk_text 3 1 " " "a b c d e" ≠ ["a b", "b c", "c d", "d e"] ∧
    (chroma.ingest_document (.dict [("id", .str "d1"), ("title", .str "a b c d e")])
        ["title"] 3 1 " ").toOption.map (List.map chroma.Chunk.text) ≠
      some ["a b", "b c", "c d", "d e"] :=
  ⟨by decide, by decide⟩

/-- C3 amended: what the code actually produces for the scenario document.
mongo emits five chunks ["a","a b","b c","c d","d e"] with 1-based
identifiers title_chunk_1 .. title_chunk_5 (no document id inside the chunk
id); chroma emits four chunks ["a b","c","d","e"] with identifiers
d1_title_chunk_0 .. d1_title_chunk_3; pgvector's create_chunks does produce
exactly the four claimed chunks ["a b","b c","c d","d e"], which its
ingest_document stores under the 0-based conflict keys (doc_id "d1",
field "title", chunk_index 0..3) rather than identifiers d1.title.0 ..
d1.title.3. -/
theorem c3_actual :
    mongo.chunk_text 3 1 " " "a b c d e" = ["a", "a b", "b c", "c d", "d e"] ∧
    (mongo.ingest_ops [("id", .str "d1"), ("title", .str "a b c d e")] ["title"] 3 1 " "
        none).map mongo.Op.chunk_id =
      ["title_chunk_1", "title_chunk_2", "title_chunk_3", "title_chunk_4", "title_chunk_5"] ∧
    (chroma.ingest_document (.dict [("id", .str "d1"), ("title", .str "a b c d e")])
        ["title"] 3 1 " ").toOption.map (List.map chroma.Chunk.text) =
      some ["a b", "c", "d", "e"] ∧
    (chroma.ingest_document (.dict [("id", .str "d1"), ("title", .str "a b c d e")])
        ["title"] 3 1 " ").toOption.map (List.map chroma.Chunk.id) =
      some ["d1_title_chunk_0", "d1_title_chunk_1", "d1_title_chunk_2", "d1_title_chunk_3"] ∧
    pgvector.create_chunks 8 "a b c d e" 3 1 " " = some ["a b", "b c", "c d", "d e"] ∧
    (pgvector.ingest_document (fun _ => 0) 8
        (.dict [("id", .str "d1"), ("title", .str "a b c d e")]) ["title"] 3 1 " "
        (fun _ => [])).map
      (List.map fun r => (pyStr r.doc_id, r.field_name, r.chunk_index, r.chunk_text)) =
      some [("d1", "title", 0, "a b"), ("d1", "title", 1, "b c"), ("d1", "title", 2, "c d"),
        ("d1", "title", 3, "d e")] :=
  ⟨rfl, rfl, rfl, rfl, rfl, rfl⟩

/-- C6: resolving "tags.*" over the document with tags ["x","y"] does not
yield two resolved fields with paths tags.0 and tags.1: chroma's resolver
yields zero results (the trailing wildcard recurses with an empty remaining
path, which returns nothing), and mongo's resolver collapses the elements
into the single string repr of the Python list. -/
theorem c6_counterexample :
    chroma.extract_field_value " " 3 (.dict [("tags", .list [.str "x", .str "y"])])
        ["tags", "*"] "" = [] ∧
    mongo.extract_field_content (.dict [("tags", .list [.str "x", .str "y"])]) ["tags", "*"] =
      "[" ++ pyQuote ++ "x" ++ pyQuote ++ ", " ++ pyQuote ++ "y" ++ pyQuote ++ "]" :=
  ⟨rfl, rfl⟩

/-- C6 amended: langchain's resolver returns exactly the two values "x","y"
in element order but discards the concrete paths it computes (no tags.0 /
tags.1 is emitted); chroma's resolver returns zero results for the trailing
wildcard; mongo's resolver returns the single combined string. -/
theorem c6_actual :
    langchain.extract_field_value 3 (.dict [("tags", .list [.str "x", .str "y"])])
        ["tags", "*"] [] = ["x", "y"] ∧
    chroma.extract_field_value " " 3 (.dict [("tags", .list [.str "x", .str "y"])])
        ["tags", "*"] "" = [] ∧
    mongo.extract_field_content (.dict [("tags", .list [.str "x", .str "y"])]) ["tags", "*"] =
      "[" ++ pyQuote ++ "x" ++ pyQuote ++ ", " ++ pyQuote ++ "y" ++ pyQuote ++ "]" :=
  ⟨rfl, rfl, rfl⟩

/-- C7: a wrong-shape miss is not silent in mongo.  For the document with
"missing" bound to the integer 5, the path "missing.field" applies the
segment "field" to a scalar; per the claim this must yield zero records, but
mongo's extractor skips the segment, keeps the scalar, and ingestion emits
one chunk record with text "5". -/
theorem c7_counterexample :
    (mongo.ingest_ops [("id", .str "d1"), ("missing", .int 5)] ["missing.field"] 512 0 " "
        none).length = 1 ∧
    (mongo.ingest_ops [("id", .str "d1"), ("missing", .int 5)] ["missing.field"] 512 0 " "
        none).map mongo.Op.text = ["5"] :=
  ⟨rfl, rfl⟩

/-- C7 amended: a resolution miss by an absent segment is silent.  For every
document whose top level lacks the key "missing", chroma's resolver yields
zero results for "missing.field" at any fuel and chroma contributes zero
chunk records for that pattern; mongo's extractor returns the empty string
(the empty-string lookup default short-circuits) and ingestion returns ok
with zero operations.  (A segment applied to a scalar of the wrong shape is
NOT silent in mongo; see the counterexample.) -/
theorem c7_amended :
    ∀ (sep : String) (es : List (String × PyVal)) (cp : String) (cs co : Int)
      (emb : Option (String → List Int)) (fuel : Nat) (idv : String),
      dlookup "missing" es = none →
      chroma.extract_field_value sep fuel (.dict es) ["missing", "field"] cp = [] ∧
      chroma.field_records idv cs co sep (.dict es) "missing.field" = [] ∧
      mongo.extract_field_content (.dict es) ["missing", "field"] = "" ∧
      mongo.ingest_document (.dict es) ["missing.field"] cs co sep emb = .ok [] := by
  intro sep es cp cs co emb fuel idv h
  have hch : ∀ (f : Nat) (cp2 : String),
      chroma.extract_field_value sep f (.dict es) ["missing", "field"] cp2 = [] := by
    intro f cp2
    match f with
    | 0 => rfl
    | f + 1 => simp [chroma.extract_field_value, h]
  have hm : mongo.extract_field_content (.dict es) ["missing", "field"] = "" := by
    by_cases he : es.isEmpty
    · simp [mongo.extract_field_content, pyTruthy, he]
    · simp only [mongo.extract_field_content, pyTruthy, he, Bool.not_false, if_neg]
      simp [h, mongo.extract_field_content, pyTruthy]
  have hsplit : pySplit "missing.field" "." = ["missing", "field"] := rfl
  refine ⟨hch fuel cp, ?_, hm, ?_⟩
  · simp [chroma.field_records, hsplit, hch]
  · simp [mongo.ingest_document, mongo.ingest_ops, hsplit, hm]

/-- Witness for C7 at a concrete document lacking the key "missing". -/
theorem c7_witness :
    chroma.extract_field_value " " 3 (.dict [("id", .str "d1")]) ["missing", "field"] "" = [] ∧
    chroma.field_records "d1" 512 0 " " (.dict [("id", .str "d1")]) "missing.field" = [] ∧
    mongo.extract_field_content (.dict [("id", .str "d1")]) ["missing", "field"] = "" ∧
    mongo.ingest_document (.dict [("id", .str "d1")]) ["missing.field"] 512 0 " " none =
      .ok [] :=
  c7_amended " " [("id", .str "d1")] "" 512 0 none 3 "d1" rfl

/-- C8: overlap is not bounded by chunkOverlap characters in mongo.  With
chunk_size 7, chunk_overlap 1 and separator " ", the text "abcdef ghijkl"
chunks to ["abcdef", "abcdef ghijkl"]; the second chunk shares a 6-character
prefix ("abcdef", one whole word) with its predecessor, exceeding the claimed
bound of 1: mongo measures overlap in words, not characters. -/
theorem c8_counterexample :
    mongo.chunk_text 7 1 " " "abcdef ghijkl" = ["abcdef", "abcdef ghijkl"] ∧
    sharedOverlapLen "abcdef" "abcdef ghijkl" = 6 ∧
    ¬ sharedOverlapLen "abcdef" "abcdef ghijkl" ≤ 1 :=
  ⟨rfl, rfl, by decide⟩

/-- C8 amended: chroma's overlap seed is bounded by chunkOverlap characters
(each kept word counts its length plus one separator), though it may be empty
even when chunkOverlap > 0; mongo instead prepends up to chunkOverlap words
of the previous chunk, a word-based bound with no character guarantee. -/
theorem c8_amended :
    ∀ (chunk_overlap : Int) (separator : String) (olen : Nat) (ws : List String)
      (prev : String),
      (olen : Int) ≤ chunk_overlap →
      ((chroma.overlap_rev chunk_overlap separator olen ws).2 : Int) ≤ chunk_overlap ∧
      (mongo.overlap_words chunk_overlap separator prev).length ≤ chunk_overlap.toNat := by
  intro co sep olen ws prev h
  have A : ∀ (ws : List String) (olen : Nat), (olen : Int) ≤ co →
      ((chroma.overlap_rev co sep olen ws).2 : Int) ≤ co := by
    intro ws
    induction ws with
    | nil => intro olen h; simpa [chroma.overlap_rev] using h
    | cons w ws ih =>
      intro olen h
      simp only [chroma.overlap_rev]
      split
      · simpa using h
      · rename_i hgt
        exact ih (olen + (w.length + sep.length)) (by push_cast at hgt ⊢; omega)
  refine ⟨A ws olen h, ?_⟩
  simp only [mongo.overlap_words, List.length_drop]
  omega

/-- Witness for C8: the bound instantiated at chunk_overlap 1 with the word
list ["b","a"] and the previous chunk "abcdef". -/
theorem c8_witness :
    ((chroma.overlap_rev 1 " " 0 ["b", "a"]).2 : Int) ≤ 1 ∧
    (mongo.overlap_words 1 " " "abcdef").length ≤ (1 : Int).toNat :=
  c8_amended 1 " " 0 ["b", "a"] "abcdef" (by decide)

/-- With a non-positive chunk_size the greedy packing condition never holds,
so a chunk is closed at every word once one is pending: starting from a
single pending word, every remaining word becomes its own chunk. -/
theorem mongo_greedy_singletons (cs : Int) (sep : String) (hcs : cs ≤ 0) :
    ∀ (ws : List String) (c : String) (n : Nat),
      mongo.chunk_text_greedy_aux cs sep ws [c] n = c :: ws := by
  intro ws
  induction ws with
  | nil => intro c n; rfl
  | cons w ws ih =>
    intro c n
    have hlt : ¬ ((n + w.length + 1 : Int) ≤ cs) := by omega
    simp only [mongo.chunk_text_greedy_aux, if_neg hlt]
    rw [ih w (w.length + 1)]
    rfl

/-- C9 amended: no implementation validates chunkSize.  With chunkSize ≤ 0,
mongo's greedy packing yields one chunk per token (the pre-overlap chunk
list equals the word split), and ingest_document still returns ok - no
eager rejection, no error. -/
theorem c9_amended :
    ∀ (cs : Int) (sep text : String) (es : List (String × PyVal)) (fields : List String)
      (co : Int) (emb : Option (String → List Int)),
      cs ≤ 0 →
      mongo.chunk_text_greedy cs sep text = pySplit text sep ∧
      (mongo.ingest_document (.dict es) fields cs co sep emb).toOption.isSome = true := by
  intro cs sep text es fields co emb hcs
  constructor
  · show mongo.chunk_text_greedy_aux cs sep (pySplit text sep) [] 0 = pySplit text sep
    cases hws : pySplit text sep with
    | nil => rfl
    | cons w ws =>
      have hlt : ¬ (((0 : Nat) + w.length + 1 : Int) ≤ cs) := by push_cast; omega
      simp only [mongo.chunk_text_greedy_aux, if_neg hlt]
      rw [mongo_greedy_singletons cs sep hcs ws w (w.length + 1)]
      rfl
  · rfl

/-- Witness for C9 at chunkSize 0: "a b" becomes the two chunks ["a","b"]
and ingestion succeeds. -/
theorem c9_witness :
    mongo.chunk_text_greedy 0 " " "a b" = pySplit "a b" " " ∧
    (mongo.ingest_document (.dict [("id", .str "d1"), ("title", .str "a b")]) ["title"]
        0 0 " " none).toOption.isSome = true :=
  c9_amended 0 " " "a b" [("id", .str "d1"), ("title", .str "a b")] ["title"] 0 none
    (by decide)

/-- C9: the claim that a non-positive chunkSize is rejected eagerly with a
fatal error fails: with chunkSize 0 mongo's ingestion succeeds and emits two
records ("a" and "b"), processing the document content in full. -/
theorem c9_counterexample :
    (mongo.ingest_ops [("id", .str "d1"), ("title", .str "a b")] ["title"] 0 0 " "
        none).map mongo.Op.text = ["a", "b"] ∧
    (mongo.ingest_document (.dict [("id", .str "d1"), ("title", .str "a b")]) ["title"]
        0 0 " " none).toOption.isSome = true :=
  ⟨rfl, rfl⟩

/-- Mapping a constant over a list gives a replicate of its length. -/
theorem map_const_replicate {α β : Type} (l : List α) (b : β) :
    l.map (fun _ => b) = List.replicate l.length b := by
  induction l <;> simp [*, List.replicate_succ]

/-- Successor of the indices of an enumeration, as a range from k+1. -/
theorem enumFrom_map_fst_succ {α : Type} :
    ∀ (l : List α) (k : Nat),
      (List.enumFrom k l).map (fun ic => ic.1 + 1) = List.range' (k + 1) l.length := by
  intro l
  induction l with
  | nil => intro k; rfl
  | cons a l ih => intro k; simp [List.range', ih (k + 1)]

/-- The chunk_index values emitted by chroma's word loop are consecutive from
the starting index. -/
theorem chroma_loop_indices (cs co : Int) (sep : String) :
    ∀ (ws cur : List String) (n idx : Nat),
      (chroma.chunk_loop cs co sep ws cur n idx).map Prod.snd =
        List.range' idx (chroma.chunk_loop cs co sep ws cur n idx).length := by
  intro ws
  induction ws with
  | nil =>
    intro cur n idx
    by_cases hc : cur.isEmpty <;> simp [chroma.chunk_loop, hc, List.range']
  | cons w ws ih =>
    intro cur n idx
    simp only [chroma.chunk_loop]
    split <;> split <;> simp [List.range', ih]

/-- C4 amended: chunk indices are contiguous with no gaps, but their origin
differs per backend - mongo records chunk_index i+1 so a field's indices are
1..n (1-based, not 0-based), with total_chunks identical (= n) across all of
the field's operations; chroma's loop assigns 0-based consecutive indices
0..n-1. -/
theorem c4_amended :
    (∀ (did : PyVal) (field : String) (cs co : Int) (sep : String)
        (emb : Option (String → List Int)) (content : String),
      (mongo.field_ops did field cs co sep emb content).map mongo.Op.chunk_index =
        List.range' 1 (mongo.chunk_text cs co sep content).length ∧
      (mongo.field_ops did field cs co sep emb content).map mongo.Op.total_chunks =
        List.replicate (mongo.chunk_text cs co sep content).length
          (mongo.chunk_text cs co sep content).length) ∧
    (∀ (cs co : Int) (sep : String) (ws : List String),
      (chroma.chunk_loop cs co sep ws [] 0 0).map Prod.snd =
        List.range (chroma.chunk_loop cs co sep ws [] 0 0).length) := by
  constructor
  · intro did field cs co sep emb content
    constructor
    · show ((mongo.chunk_text cs co sep content).enum.map _).map mongo.Op.chunk_index = _
      rw [List.map_map]
      have hc : (mongo.Op.chunk_index ∘ fun ic : Nat × String =>
          ({ doc_id := did
             chunk_id := mongo.chunk_id_of field (ic.1 + 1)
             field := field
             chunk_index := ic.1 + 1
             text := ic.2
             embedding := emb.map fun f => f ic.2
             total_chunks := (mongo.chunk_text cs co sep content).length
             chunk_size := cs
             chunk_overlap := co } : mongo.Op)) = fun ic => ic.1 + 1 := rfl
      rw [hc, List.enum]
      rw [enumFrom_map_fst_succ]
    · show ((mongo.chunk_text cs co sep content).enum.map _).map mongo.Op.total_chunks = _
      rw [List.map_map]
      have hc : (mongo.Op.total_chunks ∘ fun ic : Nat × String =>
          ({ doc_id := did
             chunk_id := mongo.chunk_id_of field (ic.1 + 1)
             field := field
             chunk_index := ic.1 + 1
             text := ic.2
             embedding := emb.map fun f => f ic.2
             total_chunks := (mongo.chunk_text cs co sep content).length
             chunk_size := cs
             chunk_overlap := co } : mongo.Op)) =
          fun _ => (mongo.chunk_text cs co sep content).length := rfl
      rw [hc, map_const_replicate]
      simp [List.enum_length]
  · intro cs co sep ws
    rw [chroma_loop_indices, List.range_eq_range']

/-- C4: chunk indices do not start at 0 in mongo - the first operation of a
field carries chunk_index 1. -/
theorem c4_counterexample :
    ((mongo.ingest_ops [("id", .str "d1"), ("title", .str "hello")] ["title"] 512 50 " "
        none).map mongo.Op.chunk_index).head? = some 1 ∧
    ((mongo.ingest_ops [("id", .str "d1"), ("title", .str "hello")] ["title"] 512 50 " "
        none).map mongo.Op.chunk_index).head? ≠ some 0 :=
  ⟨rfl, by decide⟩

/-- Every operation built for a field carries a chunk_id that is determined
by the field and chunk_index stored in the operation itself. -/
theorem mongo_mem_field_ops {r : mongo.Op} {did : PyVal} {field : String} {cs co : Int}
    {sep : String} {emb : Option (String → List Int)} {content : String}
    (hr : r ∈ mongo.field_ops did field cs co sep emb content) :
    r.chunk_id = mongo.chunk_id_of r.field r.chunk_index := by
  simp only [mongo.field_ops, List.mem_map] at hr
  obtain ⟨ic, _, rfl⟩ := hr
  rfl

/-- The same, lifted over the whole ingestion. -/
theorem mongo_mem_ingest_ops {r : mongo.Op} {es : List (String × PyVal)}
    {fields : List String} {cs co : Int} {sep : String}
    {emb : Option (String → List Int)}
    (hr : r ∈ mongo.ingest_ops es fields cs co sep emb) :
    r.chunk_id = mongo.chunk_id_of r.field r.chunk_index := by
  simp only [mongo.ingest_ops, List.mem_flatMap] at hr
  obtain ⟨field, _, hr⟩ := hr
  split at hr
  · cases hr
  · exact mongo_mem_field_ops hr

/-- pgvector's doc_id does not depend on the hash environment when the
document carries an "id" key. -/
theorem pgv_doc_id_irrel {h1 h2 : String → Int} {es : List (String × PyVal)}
    (h : (dlookup "id" es).isSome = true) :
    pgvector.doc_id_of h1 es = pgvector.doc_id_of h2 es := by
  unfold pgvector.doc_id_of
  cases hl : dlookup "id" es with
  | none => rw [hl] at h; cases h
  | some v => rfl

/-- C1 amended: ingestion is deterministic given a fixed hash environment,
and across environments for every document with an "id" key: pgvector's row
sequence does not depend on the process hash seed when the document has an
id.  The dedup identifier is a pure function of the stored record triple:
any two mongo operations, from any two ingestions, that agree on doc_id,
field and chunk_index carry the same chunk_id.  (For id-less documents
pgvector's doc_id comes from the salted hash of the document JSON, so
re-ingestion in a fresh process does not reproduce identifiers; see the
counterexample.) -/
theorem c1_amended :
    (∀ (h1 h2 : String → Int) (fuel : Nat) (d : PyVal) (fields : List String)
        (cs co : Int) (sep : String) (embF : String → List Int),
      pgvector.has_id d = true →
      pgvector.ingest_document h1 fuel d fields cs co sep embF =
        pgvector.ingest_document h2 fuel d fields cs co sep embF) ∧
    (∀ (es1 es2 : List (String × PyVal)) (fs1 fs2 : List String) (cs1 co1 cs2 co2 : Int)
        (sp1 sp2 : String) (e1 e2 : Option (String → List Int)) (r1 r2 : mongo.Op),
      r1 ∈ mongo.ingest_ops es1 fs1 cs1 co1 sp1 e1 →
      r2 ∈ mongo.ingest_ops es2 fs2 cs2 co2 sp2 e2 →
      r1.doc_id = r2.doc_id → r1.field = r2.field → r1.chunk_index = r2.chunk_index →
      r1.chunk_id = r2.chunk_id) := by
  constructor
  · intro h1 h2 fuel d fields cs co sep embF hid
    cases d with
    | dict es =>
      show pgvector.ingest_rows h1 fuel es fields cs co sep embF =
        pgvector.ingest_rows h2 fuel es fields cs co sep embF
      unfold pgvector.ingest_rows
      rw [pgv_doc_id_irrel (by simpa [pgvector.has_id] using hid)]
    | str s => simp [pgvector.has_id] at hid
    | int n => simp [pgvector.has_id] at hid
    | bool b => simp [pgvector.has_id] at hid
    | null => simp [pgvector.has_id] at hid
    | list l => simp [pgvector.has_id] at hid
  · intro es1 es2 fs1 fs2 cs1 co1 cs2 co2 sp1 sp2 e1 e2 r1 r2 hr1 hr2 _ hf hi
    rw [mongo_mem_ingest_ops hr1, mongo_mem_ingest_ops hr2, hf, hi]

/-- C1: determinism fails across processes for id-less documents.  The same
document and parameters under two hash environments (two Python processes
with different hash seeds) produce row sequences with different doc_ids, so
re-ingestion does not reproduce the prior identifier set. -/
theorem c1_counterexample :
    (pgvector.ingest_document (fun _ => 0) 3 (.dict [("title", .str "hi")]) ["title"]
        512 50 " " (fun _ => [])).map (List.map fun r => pyStr r.doc_id) ≠
      (pgvector.ingest_document (fun _ => 1) 3 (.dict [("title", .str "hi")]) ["title"]
        512 50 " " (fun _ => [])).map (List.map fun r => pyStr r.doc_id) := by
  decide

/-- A concrete mongo operation produced by ingesting a one-field document. -/
def mongoOpW : mongo.Op :=
  { doc_id := .str "d1"
    chunk_id := "title_chunk_1"
    field := "title"
    chunk_index := 1
    text := "ab"
    embedding := none
    total_chunks := 1
    chunk_size := 512
    chunk_overlap := 0 }

/-- mongoOpW is the operation ingested from its document. -/
theorem mongoOpW_mem :
    mongoOpW ∈ mongo.ingest_ops [("id", .str "d1"), ("title", .str "ab")] ["title"]
      512 0 " " none := by
  have h : mongo.ingest_ops [("id", .str "d1"), ("title", .str "ab")] ["title"]
      512 0 " " none = [mongoOpW] := rfl
  rw [h]
  exact List.mem_singleton.mpr rfl

/-- Witness for C1 at a document that carries an "id" key, plus a concrete
instance of chunk_id purity. -/
theorem c1_witness :
    pgvector.ingest_document (fun _ => 0) 3 (.dict [("id", .str "d1"), ("title", .str "hi")])
        ["title"] 512 50 " " (fun _ => []) =
      pgvector.ingest_document (fun _ => 7) 3 (.dict [("id", .str "d1"), ("title", .str "hi")])
        ["title"] 512 50 " " (fun _ => []) ∧
    mongoOpW.chunk_id = mongoOpW.chunk_id :=
  ⟨c1_amended.1 (fun _ => 0) (fun _ => 7) 3 (.dict [("id", .str "d1"), ("title", .str "hi")])
      ["title"] 512 50 " " (fun _ => []) rfl,
   c1_amended.2 [("id", .str "d1"), ("title", .str "ab")] [("id", .str "d1"), ("title", .str "ab")]
      ["title"] ["title"] 512 0 512 0 " " " " none none mongoOpW mongoOpW
      mongoOpW_mem mongoOpW_mem rfl rfl rfl⟩

/-- Without an embedding model, a completed process_value leaves the vector
accumulator unchanged. -/
theorem pc_process_value_none {fuel : Nat} {cs co : Int} {sep did field : String}
    {acc r : List pinecone.Vec} {v : PyVal}
    (h : pinecone.process_value fuel cs co sep did field none acc v = some r) : r = acc := by
  unfold pinecone.process_value at h
  split at h
  · exact (Option.some.inj h).symm
  · cases hc : pinecone.create_chunks fuel cs co sep (pyStr v) with
    | none => rw [hc] at h; cases h
    | some chunks => rw [hc] at h; exact (Option.some.inj h).symm

/-- The value fold with no embedding model keeps the accumulator. -/
theorem pc_fold_value_none {fuel : Nat} {cs co : Int} {sep did field : String} :
    ∀ (flat : List PyVal) (acc r : List pinecone.Vec),
      flat.foldlM (pinecone.process_value fuel cs co sep did field none) acc = some r →
      r = acc := by
  intro flat
  induction flat with
  | nil => intro acc r h; exact (Option.some.inj h).symm
  | cons v vs ih =>
    intro acc r h
    rw [List.foldlM_cons] at h
    cases hm : pinecone.process_value fuel cs co sep did field none acc v with
    | none => rw [hm] at h; cases h
    | some mid =>
      rw [hm] at h
      exact (ih mid r h).trans (pc_process_value_none hm)

/-- A completed process_field with no embedding model keeps the accumulator. -/
theorem pc_process_field_none {fuel : Nat} {cs co : Int} {sep did : String}
    {document : PyVal} {acc r : List pinecone.Vec} {field : String}
    (h : pinecone.process_field fuel cs co sep did none document acc field = some r) :
    r = acc := by
  unfold pinecone.process_field at h
  cases hg : pinecone.get_nested_value fuel document field with
  | none => rw [hg] at h; cases h
  | some fv =>
    rw [hg] at h
    simp only [Option.bind_eq_bind, Option.some_bind] at h
    split at h
    · exact (Option.some.inj h).symm
    · exact pc_fold_value_none _ acc r h

/-- The field fold with no embedding model keeps the accumulator. -/
theorem pc_fold_field_none {fuel : Nat} {cs co : Int} {sep did : String}
    {document : PyVal} :
    ∀ (fields : List String) (acc r : List pinecone.Vec),
      fields.foldlM (pinecone.process_field fuel cs co sep did none document) acc = some r →
      r = acc := by
  intro fields
  induction fields with
  | nil => intro acc r h; exact (Option.some.inj h).symm
  | cons f fs ih =>
    intro acc r h
    rw [List.foldlM_cons] at h
    cases hm : pinecone.process_field fuel cs co sep did none document acc f with
    | none => rw [hm] at h; cases h
    | some mid =>
      rw [hm] at h
      exact (ih mid r h).trans (pc_process_field_none hm)

/-- C10: in the pinecone implementation, whenever ingest_document completes
with embedding_model = None it produces zero vectors and never contacts the
storage backend, for every document, field list and chunking parameters -
extraction and chunking still run, but their results are discarded without
error by the `if embedding_model:` guard. -/
theorem c10_no_records :
    ∀ (fuel : Nat) (document : PyVal) (searchable_fields : List String)
      (chunk_size chunk_overlap : Int) (separator : String)
      (r : List pinecone.Vec × Bool),
      pinecone.ingest_document fuel document searchable_fields chunk_size chunk_overlap
        separator none = some r →
      r = ([], false) := by
  intro fuel document fields cs co sep r h
  unfold pinecone.ingest_document at h
  cases hf : fields.foldlM
      (pinecone.process_field fuel cs co sep (pinecone.doc_id_of document) none document)
      [] with
  | none => rw [hf] at h; cases h
  | some vecs =>
    rw [hf] at h
    have hv : vecs = [] := pc_fold_field_none fields [] vecs hf
    subst hv
    exact (Option.some.inj h).symm

/-- Witness for C10: a document with non-empty matched text still yields zero
vectors and no storage call. -/
theorem c10_witness :
    pinecone.ingest_document 9 (.dict [("id", .str "d1"), ("title", .str "hello world")])
        ["title"] 512 50 " " none = some ([], false) ∧
    (([] : List pinecone.Vec), false) = ([], false) :=
  ⟨rfl,
   c10_no_records 9 (.dict [("id", .str "d1"), ("title", .str "hello world")]) ["title"]
     512 50 " " ([], false) rfl⟩
